import Mathlib

/-!
Shallow embedding of the build/test orchestration core of the `mtp` repository:
the agent connection pool (`app/services/jenkins_pool.py`), the multi-state
build queue (`app/services/jenkins_queue.py`) and the build controller
(`app/services/jenkins_controller.py`), together with theorems settling the
frozen claims about them.

Python integers are modelled as `Int`; the floating-point scores computed by
the pool's selection strategies are modelled exactly as rationals (`ℚ`), which
is faithful because every quantity entering a score is a ratio of machine
integers and the code only compares scores.  The MD5 hash used by the
consistent-hash strategy is modelled as an abstract function parameter
`hashFn : String → Nat`; no claim depends on the value of the hash.
-/

namespace MTP

/-- Node status enum (`NodeStatus` in `app/models/jenkins_node.py`). -/
inductive NodeStatus where
  | online
  | offline
  | busy
  | error
  | testing
deriving DecidableEq, Repr

/-- Build status enum (`BuildStatus` in `app/models/jenkins_build.py`). -/
inductive BuildStatus where
  | queued
  | pending
  | running
  | success
  | failure
  | unstable
  | aborted
  | timeout
deriving DecidableEq, Repr

/-- A Jenkins slave node (`JenkinsNode` in `app/models/jenkins_node.py`),
restricted to the columns the pool and controller read or write. -/
structure Node where
  id : Nat
  name : String
  labels : List String
  maxExecutors : Int
  currentExecutors : Int
  status : NodeStatus
  enabled : Bool
  totalTestsExecuted : Int
  totalTestsPassed : Int
  totalTestsFailed : Int
  averageTestDuration : Int
  cpuUsage : Int
  memoryUsage : Int
deriving DecidableEq, Repr

/-- The status filter of `acquire_node`: the SQL query keeps nodes whose
status is `ONLINE`, `TESTING` or `BUSY`. -/
def statusEligible (s : NodeStatus) : Bool :=
  s = NodeStatus.online ∨ s = NodeStatus.testing ∨ s = NodeStatus.busy

/-- The label filter of `acquire_node`: one `labels.contains([label])` clause
per required label, i.e. every required label occurs in the node's labels.
An empty requirement list adds no clause, which coincides with `List.all`. -/
def hasLabels (n : Node) (labels : List String) : Bool :=
  labels.all (fun l => n.labels.contains l)

/-- Membership in the SQL result set of `acquire_node` (enabled, eligible
status, all required labels). -/
def queryMatch (labels : List String) (n : Node) : Bool :=
  n.enabled && statusEligible n.status && hasLabels n labels

/-- A candidate of `acquire_node`: in the query result set and with a free
executor slot (`current_executors < max_executors`). -/
def isCandidate (labels : List String) (n : Node) : Bool :=
  queryMatch labels n && decide (n.currentExecutors < n.maxExecutors)

/-- The per-node score of `_load_balanced_selection`, computed exactly.
Python truthiness makes `node.cpu_usage / 100.0 if node.cpu_usage else 0.5`
fall back to `0.5` whenever `cpu_usage` is `0`, and likewise for memory. -/
def loadScore (n : Node) : ℚ :=
  let executorUtil : ℚ :=
    if n.maxExecutors > 0 then (n.currentExecutors : ℚ) / (n.maxExecutors : ℚ) else 1
  let cpuLoad : ℚ := if n.cpuUsage ≠ 0 then (n.cpuUsage : ℚ) / 100 else 1/2
  let memoryLoad : ℚ := if n.memoryUsage ≠ 0 then (n.memoryUsage : ℚ) / 100 else 1/2
  let successRate : ℚ :=
    if n.totalTestsExecuted > 0 then (n.totalTestsPassed : ℚ) / (n.totalTestsExecuted : ℚ)
    else 1/2
  (1 - executorUtil) * 40 + (1 - cpuLoad) * 20 + (1 - memoryLoad) * 20 + successRate * 20

/-- The per-node score of `_consistent_hash_node_selection`:
`hash(name ++ ":" ++ jobName) mod 1000` plus `100000` times the availability
fraction.  The MD5 hash is the abstract parameter `hashFn`. -/
def consistentHashScore (hashFn : String → Nat) (jobName : String) (n : Node) : ℚ :=
  let availabilityWeight : ℚ := ((n.maxExecutors - n.currentExecutors : Int) : ℚ) / (n.maxExecutors : ℚ)
  ((hashFn (n.name ++ ":" ++ jobName) % 1000 : Nat) : ℚ) + availabilityWeight * 100000

/-- Both selection strategies build a scored list, sort it in descending score
order with Python's stable sort and take the head; that head is the leftmost
node of maximal score, which this left fold computes directly. -/
def selectMaxBy (score : Node → ℚ) : List Node → Option Node
  | [] => none
  | n :: ns => some (ns.foldl (fun best m => if score m > score best then m else best) n)

/-- The non-dry-run commit of `acquire_node`: the selected row gets
`current_executors += 1` and `status = BUSY`. -/
def commitAcquire (nodes : List Node) (nid : Nat) : List Node :=
  nodes.map (fun m =>
    if m.id = nid then
      { m with currentExecutors := m.currentExecutors + 1, status := NodeStatus.busy }
    else m)

/-- The selection cascade of `acquire_node` over the filtered candidate list:
strategy 1 is the preferred node when it is among the candidates, strategy 2
is consistent hashing when a job name is given, strategy 3 is load balancing.
On an empty candidate list every strategy yields `none`, which is the
`return None` of the source. -/
def selectNode (hashFn : String → Nat) (availableNodes : List Node)
    (preferNodeId : Option Nat) (jobName : Option String) : Option Node :=
  match (match preferNodeId with
         | some pid => availableNodes.find? (fun n => n.id = pid)
         | none => none) with
  | some p => some p
  | none =>
    match jobName with
    | some jn => selectMaxBy (consistentHashScore hashFn jn) availableNodes
    | none => selectMaxBy loadScore availableNodes

/-- `NodeConnectionPool.acquire_node`.  Returns the selected node (if any)
and the node table after the operation; the selected row is committed
(executor increment plus `BUSY`) exactly when `dryRun` is false. -/
def acquireNode (hashFn : String → Nat) (nodes : List Node) (labels : List String)
    (preferNodeId : Option Nat) (jobName : Option String) (dryRun : Bool) :
    Option Node × List Node :=
  let availableNodes := nodes.filter (isCandidate labels)
  match selectNode hashFn availableNodes preferNodeId jobName with
  | none => (none, nodes)
  | some s => (some s, if dryRun then nodes else commitAcquire nodes s.id)

/-- `NodeConnectionPool.release_node`: `current_executors = max(0, c - 1)`,
then status `ONLINE` when the count reaches zero, `BUSY` otherwise. -/
def releaseNode (nodes : List Node) (nid : Nat) : List Node :=
  nodes.map (fun m =>
    if m.id = nid then
      let c := max 0 (m.currentExecutors - 1)
      { m with currentExecutors := c,
               status := if c = 0 then NodeStatus.online else NodeStatus.busy }
    else m)

/-- `NodeConnectionPool.update_node_metrics`: bump the test counters and
recompute the cumulative mean duration with integer division. -/
def updateNodeMetrics (nodes : List Node) (nid : Nat) (testPassed : Bool)
    (testDuration : Int) : List Node :=
  nodes.map (fun m =>
    if m.id = nid then
      let executed := m.totalTestsExecuted + 1
      let total := m.averageTestDuration * (executed - 1)
      { m with
          totalTestsExecuted := executed,
          totalTestsPassed := m.totalTestsPassed + (if testPassed then 1 else 0),
          totalTestsFailed := m.totalTestsFailed + (if testPassed then 0 else 1),
          averageTestDuration := (total + testDuration) / executed }
    else m)

/-! ## Build queue (`app/services/jenkins_queue.py`)

Python dictionaries are modelled as association lists keyed by build id or
job id.  `job_build_counts` is a `defaultdict(int)`: reading an absent key
yields `0`, but a membership test on an absent key is `false` and reading via
`.get` does not insert the key. -/

/-- Queue item states (`QueueItemState`). -/
inductive QState where
  | waiting
  | blocked
  | buildable
  | pending
  | running
deriving DecidableEq, Repr

/-- `QueueItem` dataclass. -/
structure QueueItem where
  buildId : Nat
  jobId : Nat
  jobName : String
  buildNumber : Int
  priority : Int
  requiredLabels : List String
  state : QState
  queuedTime : Nat
  quietUntil : Option Nat := none
  blockedReason : Option String := none
  assignedNodeId : Option Nat := none
  maxConcurrentPerJob : Int := 1
  preferNodeId : Option Nat := none
deriving DecidableEq, Repr

/-- `QueueItem.__lt__`: strictly higher priority first, FIFO by queue time on
equal priority. -/
def itemLT (a b : QueueItem) : Bool :=
  if a.priority ≠ b.priority then a.priority > b.priority
  else a.queuedTime < b.queuedTime

/-- Insert into a sorted list, after every element strictly smaller in the
`itemLT` order — the insertion point of a stable ascending sort. -/
def insertSorted (x : QueueItem) : List QueueItem → List QueueItem
  | [] => [x]
  | y :: ys => if itemLT y x then y :: insertSorted x ys else x :: y :: ys

/-- `list.sort()` with `QueueItem.__lt__`: Python's sort is stable, and this
insertion sort computes the same stable ascending order. -/
def sortItems : List QueueItem → List QueueItem
  | [] => []
  | x :: xs => insertSorted x (sortItems xs)

/-- Association-list lookup (Python `dict[k]` / `dict.get(k)`). -/
def lookupA {α : Type} (l : List (Nat × α)) (k : Nat) : Option α :=
  (l.find? (fun p => p.1 = k)).map Prod.snd

/-- Python `k in dict`. -/
def containsKeyA {α : Type} (l : List (Nat × α)) (k : Nat) : Bool :=
  l.any (fun p => p.1 = k)

/-- Python `dict.pop(k)` (key removal). -/
def removeKeyA {α : Type} (l : List (Nat × α)) (k : Nat) : List (Nat × α) :=
  l.filter (fun p => p.1 ≠ k)

/-- Python `dict[k] = v`: overwrite in place, or append a fresh key. -/
def setKeyA {α : Type} (l : List (Nat × α)) (k : Nat) (v : α) : List (Nat × α) :=
  if l.any (fun p => p.1 = k) then l.map (fun p => if p.1 = k then (k, v) else p)
  else l ++ [(k, v)]

/-- `defaultdict(int)` read: `job_build_counts.get(job_id, 0)`. -/
def getCountD (l : List (Nat × Int)) (k : Nat) : Int :=
  (lookupA l k).getD 0

/-- The mutable state of `JenkinsQueue`.  Item records are shared by reference
between the per-state collections and `items_by_id` in Python; the embedding
keeps `itemsById` in sync explicitly wherever the code mutates an item. -/
structure QueueState where
  waitingList : List QueueItem
  blocked : List QueueItem
  buildables : List QueueItem
  pending : List (Nat × QueueItem)
  itemsById : List (Nat × QueueItem)
  runningBuilds : List (Nat × Nat)
  jobBuildCounts : List (Nat × Int)
  totalQueued : Nat := 0
  totalCompleted : Nat := 0
  totalBlocked : Nat := 0
deriving DecidableEq, Repr

/-- `JenkinsQueue._add_to_buildables`: set state, append, re-sort. -/
def addToBuildables (qs : QueueState) (item : QueueItem) : QueueState :=
  let item1 := { item with state := QState.buildable }
  { qs with buildables := sortItems (qs.buildables ++ [item1]),
            itemsById := setKeyA qs.itemsById item1.buildId item1 }

/-- `JenkinsQueue.enqueue`. -/
def enqueue (qs : QueueState) (buildId jobId : Nat) (jobName : String)
    (buildNumber : Int) (requiredLabels : List String) (priority : Int)
    (quietPeriod : Int) (maxConcurrentPerJob : Int) (preferNodeId : Option Nat)
    (now : Nat) : QueueState × QueueItem :=
  let quietUntil : Option Nat := if quietPeriod > 0 then some (now + quietPeriod.toNat) else none
  let item : QueueItem :=
    { buildId := buildId, jobId := jobId, jobName := jobName,
      buildNumber := buildNumber, priority := priority,
      requiredLabels := requiredLabels,
      state := if quietUntil.isSome then QState.waiting else QState.buildable,
      queuedTime := now, quietUntil := quietUntil,
      maxConcurrentPerJob := maxConcurrentPerJob, preferNodeId := preferNodeId }
  let qs1 :=
    if quietUntil.isSome then
      { qs with waitingList := qs.waitingList ++ [item],
                itemsById := setKeyA qs.itemsById buildId item }
    else addToBuildables qs item
  ({ qs1 with totalQueued := qs1.totalQueued + 1 },
   if quietUntil.isSome then item else { item with state := QState.buildable })

/-- `JenkinsQueue._check_if_blocked`.  Reads only `job_build_counts` and the
node table (via a dry-run `acquire_node` with labels only); the third check in
the source inspects the preferred node but both of its branches `pass`. -/
def checkIfBlocked (hashFn : String → Nat) (jobBuildCounts : List (Nat × Int))
    (nodes : List Node) (item : QueueItem) : Option String :=
  let currentCount := getCountD jobBuildCounts item.jobId
  if item.maxConcurrentPerJob > 0 ∧ currentCount ≥ item.maxConcurrentPerJob then
    some ("Job " ++ item.jobName ++ " already has " ++ toString currentCount ++
      " concurrent builds (max: " ++ toString item.maxConcurrentPerJob ++ ")")
  else if (acquireNode hashFn nodes item.requiredLabels none none true).1 = none then
    some "No available nodes with labels"
  else none

/-- The loop body of `get_next_buildable` over the sorted buildables.
`buildables.remove(item)` removes (the unique) entry with the item's build id. -/
def gnbLoop (hashFn : String → Nat) (nodes : List Node) :
    List QueueItem → QueueState → Option QueueItem × QueueState
  | [], qs => (none, qs)
  | item :: rest, qs =>
    match checkIfBlocked hashFn qs.jobBuildCounts nodes item with
    | some reason =>
      let item1 := { item with state := QState.blocked, blockedReason := some reason }
      gnbLoop hashFn nodes rest
        { qs with
            buildables := qs.buildables.filter (fun i => i.buildId ≠ item.buildId),
            blocked := qs.blocked ++ [item1],
            itemsById := setKeyA qs.itemsById item.buildId item1,
            totalBlocked := qs.totalBlocked + 1 }
    | none =>
      let item1 := { item with state := QState.pending }
      (some item1,
        { qs with
            buildables := qs.buildables.filter (fun i => i.buildId ≠ item.buildId),
            pending := setKeyA qs.pending item.buildId item1,
            itemsById := setKeyA qs.itemsById item.buildId item1 })

/-- `JenkinsQueue.get_next_buildable`: sort the buildables, then hand each one
in order to the blocking check; the first unblocked item goes to `pending`. -/
def getNextBuildable (hashFn : String → Nat) (qs : QueueState) (nodes : List Node) :
    Option QueueItem × QueueState :=
  if qs.buildables.isEmpty then (none, qs)
  else
    let sorted := sortItems qs.buildables
    gnbLoop hashFn nodes sorted { qs with buildables := sorted }

/-- `JenkinsQueue.mark_running`. -/
def markRunning (qs : QueueState) (buildId nodeId : Nat) : QueueState :=
  match lookupA qs.pending buildId with
  | none => qs
  | some item =>
    let item1 := { item with state := QState.running, assignedNodeId := some nodeId }
    { qs with
        pending := removeKeyA qs.pending buildId,
        itemsById := setKeyA qs.itemsById buildId item1,
        runningBuilds := setKeyA qs.runningBuilds buildId nodeId,
        jobBuildCounts := setKeyA qs.jobBuildCounts item.jobId
          (getCountD qs.jobBuildCounts item.jobId + 1) }

/-- `JenkinsQueue.mark_completed`: pops the item from `items_by_id`, pops
`running_builds` when present, and decrements the job counter (floored at 0)
whenever the job id has an entry — without touching the `waiting_list`,
`blocked`, `buildables` or `pending` collections. -/
def markCompleted (qs : QueueState) (buildId : Nat) : QueueState :=
  match lookupA qs.itemsById buildId with
  | none => qs
  | some item =>
    let qs1 := { qs with itemsById := removeKeyA qs.itemsById buildId }
    let qs2 :=
      if containsKeyA qs1.runningBuilds buildId then
        { qs1 with runningBuilds := removeKeyA qs1.runningBuilds buildId }
      else qs1
    let qs3 :=
      if containsKeyA qs2.jobBuildCounts item.jobId then
        { qs2 with
            jobBuildCounts := setKeyA qs2.jobBuildCounts item.jobId
              (max 0 (getCountD qs2.jobBuildCounts item.jobId - 1)) }
      else qs2
    { qs3 with totalCompleted := qs3.totalCompleted + 1 }

/-! ## Build controller (`app/services/jenkins_controller.py`)

`console_output` is append-only text that never feeds back into control flow;
its contents (timestamps, banner lines) are not modelled.  The SSH subprocess
run by `_execute_docker_build` / `_execute_freestyle_build` is external: its
behaviour is the `RemoteOutcome` parameter — the process finished with an exit
code, `asyncio.wait_for` raised `TimeoutError`, or some other exception was
raised while executing. -/

/-- The per-build execution configuration snapshot stored in
`build.build_config` at trigger time, restricted to the keys the execution
path reads. -/
structure BuildConfig where
  jobType : String
  requiredLabels : List String
  buildTimeout : Int
  script : String
deriving DecidableEq, Repr

/-- A build record (`JenkinsBuild`), restricted to the columns the controller
reads or writes. -/
structure Build where
  id : Nat
  jobId : Nat
  jobName : String
  buildNumber : Int
  status : BuildStatus
  result : Option String := none
  nodeId : Option Nat := none
  nodeName : Option String := none
  queuedTime : Nat
  startTime : Option Nat := none
  endTime : Option Nat := none
  duration : Option Int := none
  exitCode : Option Int := none
  errorMessage : Option String := none
  buildConfig : BuildConfig
deriving DecidableEq, Repr

/-- A job record (`JenkinsJob`), restricted to the columns the controller
reads or writes. -/
structure Job where
  id : Nat
  name : String
  enabled : Bool
  jobType : String
  requiredLabels : List String
  buildTimeout : Int
  script : String
  nextBuildNumber : Int
  totalBuilds : Int
  successfulBuilds : Int
  failedBuilds : Int
  lastBuildStatus : Option String := none
deriving DecidableEq, Repr

/-- The database tables the orchestration core touches. -/
structure Store where
  jobs : List Job
  builds : List Build
  nodes : List Node
deriving DecidableEq, Repr

/-- `db.get(JenkinsJob, job_id)`. -/
def findJob (st : Store) (jobId : Nat) : Option Job :=
  st.jobs.find? (fun j => j.id = jobId)

/-- `db.get(JenkinsBuild, build_id)`. -/
def findBuild (st : Store) (buildId : Nat) : Option Build :=
  st.builds.find? (fun b => b.id = buildId)

/-- Persist a mutated build row (primary-key update). -/
def updateBuild (builds : List Build) (b : Build) : List Build :=
  builds.map (fun x => if x.id = b.id then b else x)

/-- Persist a mutated job row (primary-key update). -/
def updateJob (jobs : List Job) (j : Job) : List Job :=
  jobs.map (fun x => if x.id = j.id then j else x)

/-- `JenkinsController.trigger_build`: admission checks first (raising leaves
the store untouched), then build creation with a config snapshot and the
`next_build_number` / `total_builds` counter updates. -/
def triggerBuild (st : Store) (jobId : Nat) (newBuildId : Nat) (now : Nat) :
    Store × Except String Build :=
  match findJob st jobId with
  | none => (st, Except.error ("Job " ++ toString jobId ++ " not found"))
  | some job =>
    if job.enabled = false then
      (st, Except.error ("Job " ++ job.name ++ " is disabled"))
    else
      let build : Build :=
        { id := newBuildId, jobId := job.id, jobName := job.name,
          buildNumber := job.nextBuildNumber, status := BuildStatus.queued,
          queuedTime := now,
          buildConfig :=
            { jobType := job.jobType, requiredLabels := job.requiredLabels,
              buildTimeout := job.buildTimeout, script := job.script } }
      let job1 := { job with nextBuildNumber := job.nextBuildNumber + 1,
                             totalBuilds := job.totalBuilds + 1 }
      ({ st with jobs := updateJob st.jobs job1, builds := st.builds ++ [build] },
       Except.ok build)

/-- Behaviour of the external SSH subprocess during one build execution. -/
inductive RemoteOutcome where
  | finished (exitCode : Int)
  | timedOut
  | raised (msg : String)
deriving DecidableEq, Repr

/-- The result dictionary returned by the execution helpers. -/
structure ExecResult where
  exitCode : Int
  success : Bool
  error : Option String := none
deriving DecidableEq, Repr

/-- `_execute_docker_build`: the `asyncio.TimeoutError` raised by
`asyncio.wait_for` is caught inside this helper and converted into a result
dictionary with `exit_code = -1`; it never propagates to `_execute_build`. -/
def executeDockerBuild (build : Build) (outcome : RemoteOutcome) : ExecResult :=
  let timeout := build.buildConfig.buildTimeout
  match outcome with
  | RemoteOutcome.finished ec => { exitCode := ec, success := ec = 0 }
  | RemoteOutcome.timedOut =>
    { exitCode := -1, success := false,
      error := some ("Timeout after " ++ toString timeout ++ " seconds") }
  | RemoteOutcome.raised msg => { exitCode := -1, success := false, error := some msg }

/-- `_execute_freestyle_build`: an empty script fails immediately; its
`except Exception` clause also swallows `asyncio.TimeoutError` (whose string
form is empty), so no exception propagates from here either. -/
def executeFreestyleBuild (build : Build) (outcome : RemoteOutcome) : ExecResult :=
  if build.buildConfig.script = "" then
    { exitCode := -1, success := false, error := some "No script defined" }
  else
    match outcome with
    | RemoteOutcome.finished ec => { exitCode := ec, success := ec = 0 }
    | RemoteOutcome.timedOut => { exitCode := -1, success := false, error := some "" }
    | RemoteOutcome.raised msg => { exitCode := -1, success := false, error := some msg }

/-- Side effects emitted by a controller operation: each entry of
`releasedNodes` is one invocation of `connection_pool.release_node`, and each
entry of `markCompletedCalls` would be one invocation of
`jenkins_queue.mark_completed` (the controller contains no such call). -/
structure ExecEffects where
  releasedNodes : List Nat := []
  markCompletedCalls : List Nat := []
deriving DecidableEq, Repr

/-- First half of `_execute_build`, up to the suspension point at which the
remote command runs: fetch the build, set it `PENDING` unconditionally,
acquire a node (labels only — neither `prefer_node_id` nor `job_name` is
passed), and on success assign it, set the build `RUNNING` and the node
`TESTING`.  Returns the acquired node, `none` on the early-return paths. -/
def executeBuildStart (hashFn : String → Nat) (st : Store) (buildId : Nat)
    (now : Nat) : Store × Option Node :=
  match findBuild st buildId with
  | none => (st, none)
  | some build =>
    let build1 := { build with status := BuildStatus.pending }
    let labels := build1.buildConfig.requiredLabels
    let acq := acquireNode hashFn st.nodes labels none none false
    match acq.1 with
    | none =>
      let build2 := { build1 with
                        status := BuildStatus.failure,
                        result := some "FAILURE",
                        errorMessage := some "No available agents matching the required labels" }
      ({ st with builds := updateBuild st.builds build2, nodes := acq.2 }, none)
    | some node =>
      let build2 := { build1 with
                        nodeId := some node.id, nodeName := some node.name,
                        status := BuildStatus.running, startTime := some now }
      let nodes2 := acq.2.map (fun m =>
        if m.id = node.id then { m with status := NodeStatus.testing } else m)
      ({ st with builds := updateBuild st.builds build2, nodes := nodes2 }, some node)

/-- Second half of `_execute_build`: run the job-type dispatch on the result
dictionary, record exit code / status / duration, update the job statistics
and the node metrics, and run the `finally` block, which releases the node
exactly when one was acquired.  An unsupported job type raises and is caught
by the generic handler, which marks the build `FAILURE`; the controller's
`except asyncio.TimeoutError` handler (which would set `TIMEOUT`) is
unreachable because both execution helpers catch the timeout internally. -/
def executeBuildFinish (st : Store) (buildId : Nat) (optNode : Option Node)
    (outcome : RemoteOutcome) (endNow : Nat) : Store × ExecEffects :=
  let finallyRelease : Store → Store × ExecEffects := fun s =>
    match optNode with
    | some n => ({ s with nodes := releaseNode s.nodes n.id },
                 { releasedNodes := [n.id], markCompletedCalls := [] })
    | none => (s, { releasedNodes := [], markCompletedCalls := [] })
  match optNode with
  | none => finallyRelease st
  | some node =>
    match findBuild st buildId with
    | none => finallyRelease st
    | some build =>
      let jobType := build.buildConfig.jobType
      if jobType = "docker" ∨ jobType = "DOCKER" ∨ jobType = "freestyle" ∨ jobType = "FREESTYLE" then
        let result :=
          if jobType = "docker" ∨ jobType = "DOCKER" then executeDockerBuild build outcome
          else executeFreestyleBuild build outcome
        let dur : Int := (endNow : Int) - ((build.startTime.getD endNow : Nat) : Int)
        let build1 := { build with
                          endTime := some endNow, duration := some dur,
                          exitCode := some result.exitCode }
        let build2 :=
          if result.exitCode = 0 then
            { build1 with status := BuildStatus.success, result := some "SUCCESS" }
          else
            { build1 with
                status := BuildStatus.failure, result := some "FAILURE",
                errorMessage := some (result.error.getD "Build failed") }
        let st1 := { st with builds := updateBuild st.builds build2 }
        let st2 :=
          match findJob st1 build.jobId with
          | some job =>
            let job1 := { job with
              lastBuildStatus := build2.result,
              successfulBuilds := job.successfulBuilds +
                (if build2.result = some "SUCCESS" then 1 else 0),
              failedBuilds := job.failedBuilds +
                (if build2.result = some "SUCCESS" then 0 else 1) }
            { st1 with jobs := updateJob st1.jobs job1 }
          | none => st1
        let st3 := { st2 with nodes := updateNodeMetrics st2.nodes node.id (result.exitCode = 0) dur }
        finallyRelease st3
      else
        let build1 := { build with
                          status := BuildStatus.failure, result := some "FAILURE",
                          endTime := some endNow,
                          errorMessage := some ("Unsupported job type: " ++ jobType) }
        finallyRelease { st with builds := updateBuild st.builds build1 }

/-- The whole of `_execute_build`, as run by the dispatch loop when no abort
interleaves with the execution. -/
def executeBuild (hashFn : String → Nat) (st : Store) (buildId : Nat)
    (outcome : RemoteOutcome) (startNow endNow : Nat) : Store × ExecEffects :=
  let started := executeBuildStart hashFn st buildId startNow
  executeBuildFinish started.1 buildId started.2 outcome endNow

/-- `JenkinsController.abort_build`: refuse unless the status is `QUEUED`,
`PENDING` or `RUNNING`; otherwise set `ABORTED` and release the node when one
is assigned.  Returns the success flag, the new store and the release
effects. -/
def controllerAbortBuild (st : Store) (buildId : Nat) (now : Nat) :
    Bool × Store × ExecEffects :=
  match findBuild st buildId with
  | none => (false, st, { releasedNodes := [], markCompletedCalls := [] })
  | some build =>
    if build.status = BuildStatus.queued ∨ build.status = BuildStatus.pending ∨
        build.status = BuildStatus.running then
      let build1 := { build with
                        status := BuildStatus.aborted,
                        result := some "ABORTED", endTime := some now }
      let st1 := { st with builds := updateBuild st.builds build1 }
      match build.nodeId with
      | some nid =>
        (true, { st1 with nodes := releaseNode st1.nodes nid },
         { releasedNodes := [nid], markCompletedCalls := [] })
      | none => (true, st1, { releasedNodes := [], markCompletedCalls := [] })
    else (false, st, { releasedNodes := [], markCompletedCalls := [] })

/-! ## Specification-side definitions

These two definitions are written from the words of the specification (not
from the source), for comparison against the embedded code. -/

/-- The candidate condition exactly as the specification words it: enabled,
status in {Online, Busy, Testing}, required labels a subset of the node's
labels, and a free executor slot. -/
def CandidateSpec (labels : List String) (n : Node) : Prop :=
  n.enabled = true ∧
  (n.status = NodeStatus.online ∨ n.status = NodeStatus.busy ∨ n.status = NodeStatus.testing) ∧
  (∀ l ∈ labels, l ∈ n.labels) ∧
  n.currentExecutors < n.maxExecutors

/-- The load-balanced scoring formula exactly as the claim words it:
`40*(1 - currentExecutors/maxExecutors) + 20*(1 - cpuUsage/100) +
20*(1 - memUsage/100) + 20*successRate`, with `successRate` defaulting to
`0.5` exactly when `testsExecuted = 0`. -/
def specLoadScore (n : Node) : ℚ :=
  let successRate : ℚ :=
    if n.totalTestsExecuted = 0 then 1/2
    else (n.totalTestsPassed : ℚ) / (n.totalTestsExecuted : ℚ)
  40 * (1 - (n.currentExecutors : ℚ) / (n.maxExecutors : ℚ)) +
    20 * (1 - (n.cpuUsage : ℚ) / 100) +
    20 * (1 - (n.memoryUsage : ℚ) / 100) +
    20 * successRate

/-- The dispatch order of `get_next_buildable` as the spec words it:
priority descending, ties broken FIFO by enqueue time ascending. -/
def consideredBefore (a b : QueueItem) : Prop :=
  a.priority > b.priority ∨ (a.priority = b.priority ∧ a.queuedTime ≤ b.queuedTime)

/-! ## Concrete instances used by counterexamples and witnesses -/

/-- A stand-in for the abstract MD5 hash; the paths exercised below never
consult it. -/
def hashZero : String → Nat := fun _ => 0

/-- A node with no metric history: `cpu_usage = 0` and `memory_usage = 0`. -/
def nodeA : Node :=
  { id := 1, name := "a", labels := [], maxExecutors := 1, currentExecutors := 0,
    status := NodeStatus.online, enabled := true, totalTestsExecuted := 0,
    totalTestsPassed := 0, totalTestsFailed := 0, averageTestDuration := 0,
    cpuUsage := 0, memoryUsage := 0 }

/-- A node at 50% CPU and memory with a perfect test history. -/
def nodeB : Node :=
  { id := 2, name := "b", labels := [], maxExecutors := 1, currentExecutors := 0,
    status := NodeStatus.online, enabled := true, totalTestsExecuted := 1,
    totalTestsPassed := 1, totalTestsFailed := 0, averageTestDuration := 0,
    cpuUsage := 50, memoryUsage := 50 }

/-- An idle two-executor agent. -/
def agentTwo : Node :=
  { id := 1, name := "agent1", labels := [], maxExecutors := 2, currentExecutors := 0,
    status := NodeStatus.online, enabled := true, totalTestsExecuted := 0,
    totalTestsPassed := 0, totalTestsFailed := 0, averageTestDuration := 0,
    cpuUsage := 10, memoryUsage := 10 }

/-- A docker build-config snapshot with a 100-second timeout. -/
def cfgDocker : BuildConfig :=
  { jobType := "docker", requiredLabels := [], buildTimeout := 100, script := "s" }

/-- An enabled docker job. -/
def jobDocker : Job :=
  { id := 3, name := "j", enabled := true, jobType := "docker", requiredLabels := [],
    buildTimeout := 100, script := "s", nextBuildNumber := 5, totalBuilds := 4,
    successfulBuilds := 2, failedBuilds := 2 }

/-- The same job definition, disabled. -/
def jobDisabled : Job := { jobDocker with id := 4, name := "dis", enabled := false }

/-- A freshly queued build of `jobDocker`. -/
def buildOne : Build :=
  { id := 1, jobId := 3, jobName := "j", buildNumber := 4,
    status := BuildStatus.queued, queuedTime := 0, buildConfig := cfgDocker }

/-- A second queued build of the same job. -/
def buildTwo : Build :=
  { id := 2, jobId := 3, jobName := "j", buildNumber := 5,
    status := BuildStatus.queued, queuedTime := 0, buildConfig := cfgDocker }

/-- Scenario for the release-exactly-once claim: one two-executor agent and
two queued builds. -/
def c1Store : Store := { jobs := [jobDocker], builds := [buildOne, buildTwo], nodes := [agentTwo] }

/-- Both builds start executing (each acquires one executor slot). -/
def c1Start1 : Store × Option Node := executeBuildStart hashZero c1Store 1 10

/-- Second build starts on the store left by the first. -/
def c1Start2 : Store × Option Node := executeBuildStart hashZero c1Start1.1 2 11

/-- Build 1 is aborted while `RUNNING`. -/
def c1Abort : Bool × Store × ExecEffects := controllerAbortBuild c1Start2.1 1 20

/-- Build 1's execution task then finishes and runs its `finally` block. -/
def c1Finish : Store × ExecEffects :=
  executeBuildFinish c1Abort.2.1 1 c1Start1.2 (RemoteOutcome.finished 0) 30

/-- Scenario for the timeout claim: one agent, one queued docker build. -/
def c2Store : Store := { jobs := [jobDocker], builds := [buildOne], nodes := [agentTwo] }

/-- The build executes and its remote command exceeds the 100-second timeout. -/
def c2Result : Store × ExecEffects :=
  executeBuild hashZero c2Store 1 RemoteOutcome.timedOut 10 50

/-- Scenario for the terminal-status claim: the queued build is aborted … -/
def c5Abort : Bool × Store × ExecEffects := controllerAbortBuild c2Store 1 5

/-- … and the dispatch task that was already enqueued then executes it. -/
def c5After : Store × ExecEffects :=
  executeBuild hashZero c5Abort.2.1 1 (RemoteOutcome.finished 0) 10 20

/-- An empty queue state. -/
def emptyQueue : QueueState :=
  { waitingList := [], blocked := [], buildables := [], pending := [], itemsById := [],
    runningBuilds := [], jobBuildCounts := [] }

/-- A buildable queue item of job 7 with priority 5. -/
def itemX : QueueItem :=
  { buildId := 1, jobId := 7, jobName := "j", buildNumber := 1, priority := 5,
    requiredLabels := [], state := QState.buildable, queuedTime := 0 }

/-- A higher-priority buildable item of the same job, enqueued later. -/
def itemY : QueueItem :=
  { buildId := 2, jobId := 7, jobName := "j", buildNumber := 2, priority := 10,
    requiredLabels := [], state := QState.buildable, queuedTime := 3 }

/-- Queue state for the mark-completed claim: `itemX` is buildable while a
different build (id 2) of the same job 7 is running on node 9, so the running
counter of job 7 is 1. -/
def qMC : QueueState :=
  { waitingList := [], blocked := [], buildables := [itemX], pending := [],
    itemsById := [(1, itemX)], runningBuilds := [(2, 9)], jobBuildCounts := [(7, 1)] }

/-- Store for the admission-error claim: one enabled and one disabled job. -/
def c9Store : Store := { jobs := [jobDocker, jobDisabled], builds := [], nodes := [] }

/-- A running build with an assigned agent, for the double-abort claim. -/
def buildRun : Build := { buildOne with nodeId := some 1, status := BuildStatus.running }

/-- Store for the double-abort claim. -/
def c10Store : Store :=
  { jobs := [jobDocker], builds := [buildRun],
    nodes := [{ agentTwo with currentExecutors := 1, status := NodeStatus.busy }] }

/-! ## Helper lemmas -/

theorem foldl_best_mem (f : Node → ℚ) (ns : List Node) (a : Node) :
    ns.foldl (fun best m => if f m > f best then m else best) a = a ∨
    ns.foldl (fun best m => if f m > f best then m else best) a ∈ ns := by
  induction ns generalizing a with
  | nil => exact Or.inl rfl
  | cons x xs ih =>
    simp only [List.foldl_cons]
    rcases ih (if f x > f a then x else a) with h | h
    · by_cases hx : f x > f a
      · right
        rw [h, if_pos hx]
        exact List.mem_cons_self x xs
      · left
        rw [h, if_neg hx]
    · right
      exact List.mem_cons_of_mem x h

theorem foldl_best_le (f : Node → ℚ) (ns : List Node) (a : Node) :
    f a ≤ f (ns.foldl (fun best m => if f m > f best then m else best) a) ∧
    ∀ m ∈ ns, f m ≤ f (ns.foldl (fun best m => if f m > f best then m else best) a) := by
  induction ns generalizing a with
  | nil => exact ⟨le_refl _, by simp⟩
  | cons x xs ih =>
    simp only [List.foldl_cons]
    obtain ⟨h1, h2⟩ := ih (if f x > f a then x else a)
    have ha : f a ≤ f (if f x > f a then x else a) := by
      by_cases hx : f x > f a
      · rw [if_pos hx]
        exact le_of_lt hx
      · rw [if_neg hx]
    have hb : f x ≤ f (if f x > f a then x else a) := by
      by_cases hx : f x > f a
      · rw [if_pos hx]
      · rw [if_neg hx]
        exact le_of_not_lt hx
    refine ⟨le_trans ha h1, ?_⟩
    intro m hm
    rcases List.mem_cons.mp hm with rfl | hm2
    · exact le_trans hb h1
    · exact h2 m hm2

theorem selectMaxBy_eq_some {f : Node → ℚ} {l : List Node} {n : Node}
    (h : selectMaxBy f l = some n) : n ∈ l ∧ ∀ m ∈ l, f m ≤ f n := by
  match l with
  | [] => simp [selectMaxBy] at h
  | a :: as =>
    simp only [selectMaxBy, Option.some.injEq] at h
    subst h
    refine ⟨?_, ?_⟩
    · rcases foldl_best_mem f as a with h | h
      · rw [h]
        exact List.mem_cons_self a as
      · exact List.mem_cons_of_mem a h
    · intro m hm
      obtain ⟨h1, h2⟩ := foldl_best_le f as a
      rcases List.mem_cons.mp hm with rfl | hm2
      · exact h1
      · exact h2 m hm2

theorem selectNode_none_iff (hashFn : String → Nat) (l : List Node)
    (pref : Option Nat) (jn : Option String) :
    selectNode hashFn l pref jn = none ↔ l = [] := by
  cases l with
  | nil => cases pref <;> cases jn <;> simp [selectNode, selectMaxBy]
  | cons a as =>
    constructor
    · intro h
      exfalso
      cases pref with
      | none => cases jn <;> simp [selectNode, selectMaxBy] at h
      | some pid =>
        cases hfind : (a :: as).find? (fun n => n.id = pid) with
        | some p => simp [selectNode, hfind] at h
        | none => cases jn <;> simp [selectNode, hfind, selectMaxBy] at h
    · intro h
      exact absurd h (List.cons_ne_nil a as)

theorem selectNode_mem {hashFn : String → Nat} {l : List Node}
    {pref : Option Nat} {jn : Option String} {n : Node}
    (h : selectNode hashFn l pref jn = some n) : n ∈ l := by
  cases pref with
  | none =>
    cases jn with
    | none => exact (selectMaxBy_eq_some h).1
    | some s => exact (selectMaxBy_eq_some h).1
  | some pid =>
    simp only [selectNode] at h
    cases hfind : l.find? (fun n => n.id = pid) with
    | some p =>
      rw [hfind] at h
      simp only [Option.some.injEq] at h
      subst h
      exact List.mem_of_find?_eq_some hfind
    | none =>
      rw [hfind] at h
      cases jn with
      | none => exact (selectMaxBy_eq_some h).1
      | some s => exact (selectMaxBy_eq_some h).1

theorem isCandidate_iff (labels : List String) (n : Node) :
    isCandidate labels n = true ↔ CandidateSpec labels n := by
  unfold isCandidate CandidateSpec queryMatch statusEligible hasLabels
  simp only [Bool.and_eq_true, decide_eq_true_eq, List.all_eq_true]
  constructor
  · rintro ⟨⟨⟨he, hs⟩, hl⟩, hc⟩
    refine ⟨he, by tauto, ?_, hc⟩
    intro l hl2
    exact List.elem_iff.mp (hl l hl2)
  · rintro ⟨he, hs, hl, hc⟩
    refine ⟨⟨⟨he, by tauto⟩, ?_⟩, hc⟩
    intro l hl2
    exact List.elem_iff.mpr (hl l hl2)

theorem isCandidate_lt {labels : List String} {n : Node}
    (h : isCandidate labels n = true) : n.currentExecutors < n.maxExecutors := by
  unfold isCandidate at h
  simp only [Bool.and_eq_true, decide_eq_true_eq] at h
  exact h.2

/-! ## Claim theorems -/

/-- **C4** (confirmed): `acquire_node` returns `None` iff no enabled node with
status in {Online, Busy, Testing} has all required labels and a free executor
slot; any returned node is such a candidate; the preferred node is chosen
whenever it is in the candidate set; and when `dry_run` is false the returned
node's row — and only that row — gets `current_executors` incremented by
exactly one and `status = BUSY`. -/
theorem acquireNode_contract (hashFn : String → Nat) (nodes : List Node)
    (labels : List String) (preferNodeId : Option Nat) (jobName : Option String)
    (dryRun : Bool) :
    ((acquireNode hashFn nodes labels preferNodeId jobName dryRun).1 = none ↔
        ¬ ∃ n ∈ nodes, CandidateSpec labels n) ∧
    (∀ n, (acquireNode hashFn nodes labels preferNodeId jobName dryRun).1 = some n →
        n ∈ nodes ∧ CandidateSpec labels n) ∧
    (∀ pid p, preferNodeId = some pid → p ∈ nodes → CandidateSpec labels p →
        p.id = pid →
        ∃ q, (acquireNode hashFn nodes labels preferNodeId jobName dryRun).1 = some q ∧
          q.id = pid) ∧
    (dryRun = false → ∀ n,
        (acquireNode hashFn nodes labels preferNodeId jobName dryRun).1 = some n →
        (acquireNode hashFn nodes labels preferNodeId jobName dryRun).2 =
          nodes.map (fun m => if m.id = n.id then
            { m with currentExecutors := m.currentExecutors + 1,
                     status := NodeStatus.busy } else m)) := by
  have key : acquireNode hashFn nodes labels preferNodeId jobName dryRun =
      match selectNode hashFn (nodes.filter (isCandidate labels)) preferNodeId jobName with
      | none => (none, nodes)
      | some s => (some s, if dryRun then nodes else commitAcquire nodes s.id) := rfl
  cases hsel : selectNode hashFn (nodes.filter (isCandidate labels)) preferNodeId jobName with
  | none =>
    rw [key, hsel]
    have hempty : nodes.filter (isCandidate labels) = [] :=
      (selectNode_none_iff hashFn _ preferNodeId jobName).mp hsel
    have hno : ¬ ∃ n ∈ nodes, CandidateSpec labels n := by
      rintro ⟨n, hn, hc⟩
      have : n ∈ nodes.filter (isCandidate labels) :=
        List.mem_filter.mpr ⟨hn, (isCandidate_iff labels n).mpr hc⟩
      rw [hempty] at this
      exact absurd this (List.not_mem_nil n)
    refine ⟨by simpa using hno, ?_, ?_, ?_⟩
    · intro n hn
      simp at hn
    · intro pid p hpref hp hc hid
      exact absurd ⟨p, hp, hc⟩ hno
    · intro hdry n hn
      simp at hn
  | some s =>
    rw [key, hsel]
    have hsmem : s ∈ nodes.filter (isCandidate labels) := selectNode_mem hsel
    have hs : s ∈ nodes ∧ isCandidate labels s = true := List.mem_filter.mp hsmem
    refine ⟨?_, ?_, ?_, ?_⟩
    · simp only [iff_iff_implies_and_implies]
      constructor
      · intro h
        simp at h
      · intro h
        exact absurd ⟨s, hs.1, (isCandidate_iff labels s).mp hs.2⟩ h
    · intro n hn
      simp only [Option.some.injEq] at hn
      subst hn
      exact ⟨hs.1, (isCandidate_iff labels s).mp hs.2⟩
    · intro pid p hpref hp hc hid
      subst hpref
      have hpf : p ∈ nodes.filter (isCandidate labels) :=
        List.mem_filter.mpr ⟨hp, (isCandidate_iff labels p).mpr hc⟩
      have hex : ∃ x, x ∈ nodes.filter (isCandidate labels) ∧
          (fun n => decide (n.id = pid)) x = true := ⟨p, hpf, by simp [hid]⟩
      obtain ⟨q, hq⟩ := Option.isSome_iff_exists.mp (List.find?_isSome.mpr hex)
      have hq2 := List.find?_some hq
      have hsel2 : selectNode hashFn (nodes.filter (isCandidate labels))
          (some pid) jobName = some q := by
        simp only [selectNode]
        rw [hq]
      rw [hsel2] at hsel
      simp only [Option.some.injEq] at hsel
      exact ⟨s, rfl, by rw [← hsel]; simpa using hq2⟩
    · intro hdry n hn
      simp only [Option.some.injEq] at hn
      subst hn
      subst hdry
      rfl

/-- **C6** (confirmed): assuming the invariant
`0 ≤ current_executors ≤ max_executors` for every node, it still holds after
`acquire_node` (which only increments nodes strictly below capacity) and after
`release_node` (whose decrement is floored at zero).  Node ids are primary
keys, hence pairwise distinct. -/
theorem executor_bounds_preserved (hashFn : String → Nat) (nodes : List Node)
    (labels : List String) (preferNodeId : Option Nat) (jobName : Option String)
    (dryRun : Bool) (nid : Nat)
    (hids : (nodes.map Node.id).Nodup)
    (hinv : ∀ n ∈ nodes, 0 ≤ n.currentExecutors ∧ n.currentExecutors ≤ n.maxExecutors) :
    (∀ n ∈ (acquireNode hashFn nodes labels preferNodeId jobName dryRun).2,
        0 ≤ n.currentExecutors ∧ n.currentExecutors ≤ n.maxExecutors) ∧
    (∀ n ∈ releaseNode nodes nid,
        0 ≤ n.currentExecutors ∧ n.currentExecutors ≤ n.maxExecutors) := by
  constructor
  · have key : acquireNode hashFn nodes labels preferNodeId jobName dryRun =
        match selectNode hashFn (nodes.filter (isCandidate labels)) preferNodeId jobName with
        | none => (none, nodes)
        | some s => (some s, if dryRun then nodes else commitAcquire nodes s.id) := rfl
    cases hsel : selectNode hashFn (nodes.filter (isCandidate labels)) preferNodeId jobName with
    | none =>
      rw [key, hsel]
      exact hinv
    | some s =>
      rw [key, hsel]
      cases dryRun with
      | true =>
        simp only [if_pos rfl]
        exact hinv
      | false =>
        simp only [Bool.false_eq_true, if_false]
        intro n hn
        have hsmem := List.mem_filter.mp (selectNode_mem hsel)
        obtain ⟨x, hx, hxe⟩ := List.mem_map.mp hn
        by_cases hid : x.id = s.id
        · have hxs : x = s := by
            have := List.inj_on_of_nodup_map hids hx hsmem.1
            exact this hid
          subst hxs
          rw [if_pos hid] at hxe
          subst hxe
          have hlt := isCandidate_lt hsmem.2
          have h0 := (hinv x hx).1
          simp only
          omega
        · rw [if_neg hid] at hxe
          subst hxe
          exact hinv x hx
  · intro n hn
    obtain ⟨x, hx, hxe⟩ := List.mem_map.mp hn
    obtain ⟨h0, h1⟩ := hinv x hx
    by_cases hid : x.id = nid
    · rw [if_pos hid] at hxe
      subst hxe
      simp only
      refine ⟨le_max_left 0 _, max_le (by omega) (by omega)⟩
    · rw [if_neg hid] at hxe
      subst hxe
      exact ⟨h0, h1⟩

/-- Witness for the C4 contract at a concrete pool. -/
theorem acquireNode_contract_witness :
    ((acquireNode hashZero [nodeA, nodeB] [] none none true).1 = none ↔
        ¬ ∃ n ∈ [nodeA, nodeB], CandidateSpec [] n) ∧
    (∀ n, (acquireNode hashZero [nodeA, nodeB] [] none none true).1 = some n →
        n ∈ [nodeA, nodeB] ∧ CandidateSpec [] n) ∧
    (∀ pid p, (none : Option Nat) = some pid → p ∈ [nodeA, nodeB] →
        CandidateSpec [] p → p.id = pid →
        ∃ q, (acquireNode hashZero [nodeA, nodeB] [] none none true).1 = some q ∧
          q.id = pid) ∧
    (true = false → ∀ n,
        (acquireNode hashZero [nodeA, nodeB] [] none none true).1 = some n →
        (acquireNode hashZero [nodeA, nodeB] [] none none true).2 =
          [nodeA, nodeB].map (fun m => if m.id = n.id then
            { m with currentExecutors := m.currentExecutors + 1,
                     status := NodeStatus.busy } else m)) :=
  acquireNode_contract hashZero [nodeA, nodeB] [] none none true

/-- Witness for the C6 invariant preservation at a concrete pool. -/
theorem executor_bounds_preserved_witness :
    (∀ n ∈ (acquireNode hashZero [nodeA, nodeB] [] none none false).2,
        0 ≤ n.currentExecutors ∧ n.currentExecutors ≤ n.maxExecutors) ∧
    (∀ n ∈ releaseNode [nodeA, nodeB] 2,
        0 ≤ n.currentExecutors ∧ n.currentExecutors ≤ n.maxExecutors) :=
  executor_bounds_preserved hashZero [nodeA, nodeB] [] none none false 2
    (by decide) (by decide)

theorem acquireNode_fst (hashFn : String → Nat) (nodes : List Node)
    (labels : List String) (pref : Option Nat) (jn : Option String) (dry : Bool) :
    (acquireNode hashFn nodes labels pref jn dry).1 =
      selectNode hashFn (nodes.filter (isCandidate labels)) pref jn := by
  have key : acquireNode hashFn nodes labels pref jn dry =
      match selectNode hashFn (nodes.filter (isCandidate labels)) pref jn with
      | none => (none, nodes)
      | some s => (some s, if dry then nodes else commitAcquire nodes s.id) := rfl
  rw [key]
  cases selectNode hashFn (nodes.filter (isCandidate labels)) pref jn <;> rfl

theorem loadScore_nodeA_eq : loadScore nodeA = 70 := by
  norm_num [loadScore, nodeA]

theorem loadScore_nodeB_eq : loadScore nodeB = 80 := by
  norm_num [loadScore, nodeB]

theorem specLoadScore_nodeA_eq : specLoadScore nodeA = 90 := by
  norm_num [specLoadScore, nodeA]

theorem specLoadScore_nodeB_eq : specLoadScore nodeB = 80 := by
  norm_num [specLoadScore, nodeB]

theorem acquire_nodeA_nodeB :
    (acquireNode hashZero [nodeA, nodeB] [] none none true).1 = some nodeB := by
  rw [acquireNode_fst]
  have hfil : [nodeA, nodeB].filter (isCandidate []) = [nodeA, nodeB] := by decide
  rw [hfil]
  show selectMaxBy loadScore [nodeA, nodeB] = some nodeB
  simp only [selectMaxBy, List.foldl_cons, List.foldl_nil]
  rw [loadScore_nodeA_eq, loadScore_nodeB_eq]
  norm_num

/-- **C3 counterexample**: the claim's formula `20*(1 - cpuUsage/100)` /
`20*(1 - memUsage/100)` disagrees with the code when a metric is `0`, because
Python truthiness makes the code fall back to a load of `0.5`.  With no
preferred node and no affinity key, the pool returns `nodeB` although the
claim's formula scores `nodeA` strictly higher (90 against 80). -/
theorem loadBalanced_claim_counterexample :
    specLoadScore nodeA = 90 ∧ specLoadScore nodeB = 80 ∧
    loadScore nodeA = 70 ∧ loadScore nodeB = 80 ∧
    (acquireNode hashZero [nodeA, nodeB] [] none none true).1 = some nodeB :=
  ⟨specLoadScore_nodeA_eq, specLoadScore_nodeB_eq, loadScore_nodeA_eq,
    loadScore_nodeB_eq, acquire_nodeA_nodeB⟩

/-- **C3** (corrected): with neither a preferred node nor an affinity key,
every candidate is scored by the code's load formula — in which a zero
`cpuUsage` or `memUsage` counts as a load of `0.5`, and `successRate`
defaults to `0.5` exactly when `testsExecuted = 0` — and a candidate of
maximal score is returned. -/
theorem loadBalanced_selects_max (hashFn : String → Nat) (nodes : List Node)
    (labels : List String) (dryRun : Bool) (n : Node)
    (h : (acquireNode hashFn nodes labels none none dryRun).1 = some n) :
    (n ∈ nodes ∧ CandidateSpec labels n) ∧
    ∀ m ∈ nodes, CandidateSpec labels m → loadScore m ≤ loadScore n := by
  have key : acquireNode hashFn nodes labels none none dryRun =
      match selectMaxBy loadScore (nodes.filter (isCandidate labels)) with
      | none => (none, nodes)
      | some s => (some s, if dryRun then nodes else commitAcquire nodes s.id) := rfl
  cases hsel : selectMaxBy loadScore (nodes.filter (isCandidate labels)) with
  | none =>
    rw [key, hsel] at h
    simp at h
  | some s =>
    rw [key, hsel] at h
    simp only [Option.some.injEq] at h
    subst h
    obtain ⟨hmem, hmax⟩ := selectMaxBy_eq_some hsel
    obtain ⟨hn, hcand⟩ := List.mem_filter.mp hmem
    refine ⟨⟨hn, (isCandidate_iff labels _).mp hcand⟩, ?_⟩
    intro m hm hc
    exact hmax m (List.mem_filter.mpr ⟨hm, (isCandidate_iff labels m).mpr hc⟩)

/-- Witness for the corrected C3 statement at a concrete pool. -/
theorem loadBalanced_selects_max_witness :
    (acquireNode hashZero [nodeA, nodeB] [] none none true).1 = some nodeB ∧
    ((nodeB ∈ [nodeA, nodeB] ∧ CandidateSpec [] nodeB) ∧
      ∀ m ∈ [nodeA, nodeB], CandidateSpec [] m → loadScore m ≤ loadScore nodeB) :=
  ⟨acquire_nodeA_nodeB,
    loadBalanced_selects_max hashZero [nodeA, nodeB] [] true nodeB acquire_nodeA_nodeB⟩

theorem consideredBefore_trans {a b c : QueueItem}
    (h1 : consideredBefore a b) (h2 : consideredBefore b c) : consideredBefore a c := by
  unfold consideredBefore at h1 h2 ⊢
  rcases h1 with h1 | ⟨h1, h1t⟩ <;> rcases h2 with h2 | ⟨h2, h2t⟩
  · exact Or.inl (by omega)
  · exact Or.inl (by omega)
  · exact Or.inl (by omega)
  · exact Or.inr ⟨by omega, by omega⟩

theorem itemLT_true_cb {a b : QueueItem} (h : itemLT a b = true) :
    consideredBefore a b := by
  by_cases hp : a.priority = b.priority
  · simp [itemLT, hp] at h
    exact Or.inr ⟨hp, le_of_lt h⟩
  · simp [itemLT, hp] at h
    exact Or.inl h

theorem itemLT_false_cb {a b : QueueItem} (h : itemLT b a = false) :
    consideredBefore a b := by
  by_cases hp : b.priority = a.priority
  · simp [itemLT, hp] at h
    exact Or.inr ⟨hp.symm, by omega⟩
  · simp [itemLT, hp] at h
    exact Or.inl (by omega)

theorem mem_insertSorted {z x : QueueItem} : ∀ {l : List QueueItem},
    z ∈ insertSorted x l → z = x ∨ z ∈ l := by
  intro l
  induction l with
  | nil =>
    intro h
    simp [insertSorted] at h
    exact Or.inl h
  | cons y ys ih =>
    intro h
    unfold insertSorted at h
    by_cases hlt : itemLT y x = true
    · rw [if_pos hlt] at h
      rcases List.mem_cons.mp h with rfl | h2
      · exact Or.inr (List.mem_cons_self _ _)
      · rcases ih h2 with h3 | h3
        · exact Or.inl h3
        · exact Or.inr (List.mem_cons_of_mem _ h3)
    · rw [if_neg hlt] at h
      rcases List.mem_cons.mp h with rfl | h2
      · exact Or.inl rfl
      · exact Or.inr h2

theorem pairwise_insertSorted {x : QueueItem} : ∀ {l : List QueueItem},
    l.Pairwise consideredBefore → (insertSorted x l).Pairwise consideredBefore := by
  intro l
  induction l with
  | nil =>
    intro _
    simp [insertSorted]
  | cons y ys ih =>
    intro h
    obtain ⟨hy, hys⟩ := List.pairwise_cons.mp h
    unfold insertSorted
    by_cases hlt : itemLT y x = true
    · rw [if_pos hlt]
      refine List.pairwise_cons.mpr ⟨?_, ih hys⟩
      intro z hz
      rcases mem_insertSorted hz with rfl | h2
      · exact itemLT_true_cb hlt
      · exact hy z h2
    · rw [if_neg hlt]
      have hxy : consideredBefore x y := itemLT_false_cb (by simpa using hlt)
      refine List.pairwise_cons.mpr ⟨?_, h⟩
      intro z hz
      rcases List.mem_cons.mp hz with rfl | h2
      · exact hxy
      · exact consideredBefore_trans hxy (hy z h2)

theorem sortItems_pairwise : ∀ l : List QueueItem,
    (sortItems l).Pairwise consideredBefore := by
  intro l
  induction l with
  | nil => simp [sortItems]
  | cons x xs ih => exact pairwise_insertSorted ih

theorem getNextBuildable_run (hashFn : String → Nat) (nodes : List Node)
    (qs : QueueState) (l : List QueueItem) (hl : qs.buildables = l) (hne : l ≠ []) :
    getNextBuildable hashFn qs nodes =
      gnbLoop hashFn nodes (sortItems l) { qs with buildables := sortItems l } := by
  unfold getNextBuildable
  rw [hl]
  rw [if_neg (by simpa [List.isEmpty_iff] using hne)]

/-- **C7** (confirmed): `get_next_buildable` hands items to the blocking check
in an order that is pairwise priority-descending with FIFO tie-break, and for
two eligible items of priorities 10 and 5 in the buildable list — in either
order — the priority-10 item is the one returned (moved to `pending`). -/
theorem getNextBuildable_priority (hashFn : String → Nat) (nodes : List Node)
    (qs : QueueState) (a b : QueueItem)
    (hpa : a.priority = 10) (hpb : b.priority = 5)
    (ha : checkIfBlocked hashFn qs.jobBuildCounts nodes a = none)
    (_hb : checkIfBlocked hashFn qs.jobBuildCounts nodes b = none) :
    (∀ items : List QueueItem, (sortItems items).Pairwise consideredBefore) ∧
    (getNextBuildable hashFn { qs with buildables := [a, b] } nodes).1 =
      some { a with state := QState.pending } ∧
    (getNextBuildable hashFn { qs with buildables := [b, a] } nodes).1 =
      some { a with state := QState.pending } := by
  have hab : itemLT a b = true := by simp [itemLT, hpa, hpb]
  have hba : itemLT b a = false := by simp [itemLT, hpa, hpb]
  have hsort1 : sortItems [a, b] = [a, b] := by
    simp [sortItems, insertSorted, hba]
  have hsort2 : sortItems [b, a] = [a, b] := by
    simp [sortItems, insertSorted, hab]
  refine ⟨sortItems_pairwise, ?_, ?_⟩
  · rw [getNextBuildable_run hashFn nodes { qs with buildables := [a, b] } [a, b] rfl
      (by simp)]
    rw [hsort1]
    simp only [gnbLoop, ha]
  · rw [getNextBuildable_run hashFn nodes { qs with buildables := [b, a] } [b, a] rfl
      (by simp)]
    rw [hsort2]
    simp only [gnbLoop, ha]

theorem acquire_agentTwo :
    (acquireNode hashZero [agentTwo] [] none none true).1 = some agentTwo := by
  rw [acquireNode_fst]
  have hfil : [agentTwo].filter (isCandidate []) = [agentTwo] := by decide
  rw [hfil]
  rfl

theorem checkIfBlocked_itemX :
    checkIfBlocked hashZero emptyQueue.jobBuildCounts [agentTwo] itemX = none := by
  simp [checkIfBlocked, getCountD, lookupA, itemX, emptyQueue, acquire_agentTwo]

theorem checkIfBlocked_itemY :
    checkIfBlocked hashZero emptyQueue.jobBuildCounts [agentTwo] itemY = none := by
  simp [checkIfBlocked, getCountD, lookupA, itemY, emptyQueue, acquire_agentTwo]

/-- Witness for the C7 ordering at a concrete queue and pool. -/
theorem getNextBuildable_priority_witness :
    (itemY.priority = 10 ∧ itemX.priority = 5 ∧
      checkIfBlocked hashZero emptyQueue.jobBuildCounts [agentTwo] itemY = none ∧
      checkIfBlocked hashZero emptyQueue.jobBuildCounts [agentTwo] itemX = none) ∧
    ((∀ items : List QueueItem, (sortItems items).Pairwise consideredBefore) ∧
      (getNextBuildable hashZero { emptyQueue with buildables := [itemY, itemX] }
          [agentTwo]).1 = some { itemY with state := QState.pending } ∧
      (getNextBuildable hashZero { emptyQueue with buildables := [itemX, itemY] }
          [agentTwo]).1 = some { itemY with state := QState.pending }) :=
  ⟨⟨by decide, by decide, checkIfBlocked_itemY, checkIfBlocked_itemX⟩,
    getNextBuildable_priority hashZero [agentTwo] emptyQueue itemY itemX
      (by decide) (by decide) checkIfBlocked_itemY checkIfBlocked_itemX⟩

theorem removeKeyA_of_not_contains {α : Type} {l : List (Nat × α)} {k : Nat}
    (h : containsKeyA l k = false) : removeKeyA l k = l := by
  unfold removeKeyA
  apply List.filter_eq_self.mpr
  intro p hp
  unfold containsKeyA at h
  rw [List.any_eq_false] at h
  simpa using h p hp

/-- **C8 counterexample**: `mark_completed` on a *buildable* item, while
another build of the same job is running, leaves the item inside the
buildables list and decrements the job's running-build counter anyway. -/
theorem markCompleted_claim_counterexample :
    itemX.state = QState.buildable ∧
    getCountD qMC.jobBuildCounts itemX.jobId = 1 ∧
    (markCompleted qMC 1).buildables = [itemX] ∧
    (markCompleted qMC 1).jobBuildCounts = [(7, 0)] := by
  refine ⟨rfl, rfl, ?_, ?_⟩ <;> decide

/-- **C8** (corrected): for an item present in `items_by_id`,
`mark_completed` removes it from `items_by_id` and from `running_builds`
(when present), leaves the waiting, blocked, buildable and pending
collections untouched, and decrements the job's counter (floored at zero)
whenever the job has an entry in the counter map — regardless of the item's
state. -/
theorem markCompleted_exact (qs : QueueState) (bid : Nat) (item : QueueItem)
    (h : lookupA qs.itemsById bid = some item) :
    (markCompleted qs bid).waitingList = qs.waitingList ∧
    (markCompleted qs bid).blocked = qs.blocked ∧
    (markCompleted qs bid).buildables = qs.buildables ∧
    (markCompleted qs bid).pending = qs.pending ∧
    (markCompleted qs bid).itemsById = removeKeyA qs.itemsById bid ∧
    (markCompleted qs bid).runningBuilds = removeKeyA qs.runningBuilds bid ∧
    (containsKeyA qs.jobBuildCounts item.jobId = true →
        (markCompleted qs bid).jobBuildCounts =
          setKeyA qs.jobBuildCounts item.jobId
            (max 0 (getCountD qs.jobBuildCounts item.jobId - 1))) ∧
    (containsKeyA qs.jobBuildCounts item.jobId = false →
        (markCompleted qs bid).jobBuildCounts = qs.jobBuildCounts) := by
  unfold markCompleted
  rw [h]
  by_cases hrun : containsKeyA qs.runningBuilds bid
  · by_cases hcnt : containsKeyA qs.jobBuildCounts item.jobId
    · simp [hrun, hcnt]
    · simp [hrun, hcnt]
  · by_cases hcnt : containsKeyA qs.jobBuildCounts item.jobId
    · simp [hrun, hcnt, removeKeyA_of_not_contains (Bool.of_not_eq_true hrun)]
    · simp [hrun, hcnt, removeKeyA_of_not_contains (Bool.of_not_eq_true hrun)]

/-- Witness for the corrected C8 statement at a concrete queue. -/
theorem markCompleted_exact_witness :
    lookupA qMC.itemsById 1 = some itemX ∧
    ((markCompleted qMC 1).waitingList = qMC.waitingList ∧
      (markCompleted qMC 1).blocked = qMC.blocked ∧
      (markCompleted qMC 1).buildables = qMC.buildables ∧
      (markCompleted qMC 1).pending = qMC.pending ∧
      (markCompleted qMC 1).itemsById = removeKeyA qMC.itemsById 1 ∧
      (markCompleted qMC 1).runningBuilds = removeKeyA qMC.runningBuilds 1 ∧
      (containsKeyA qMC.jobBuildCounts itemX.jobId = true →
          (markCompleted qMC 1).jobBuildCounts =
            setKeyA qMC.jobBuildCounts itemX.jobId
              (max 0 (getCountD qMC.jobBuildCounts itemX.jobId - 1))) ∧
      (containsKeyA qMC.jobBuildCounts itemX.jobId = false →
          (markCompleted qMC 1).jobBuildCounts = qMC.jobBuildCounts)) :=
  ⟨by decide, markCompleted_exact qMC 1 itemX (by decide)⟩

/-- **C9** (confirmed): `trigger_build` with an unknown job id raises
"not found", and with a disabled job raises "is disabled"; in both cases the
store — builds, and the job counters inside it — is returned unchanged. -/
theorem triggerBuild_admission (st : Store) (jobId newBuildId now : Nat) :
    (findJob st jobId = none →
        triggerBuild st jobId newBuildId now =
          (st, Except.error ("Job " ++ toString jobId ++ " not found"))) ∧
    (∀ job, findJob st jobId = some job → job.enabled = false →
        triggerBuild st jobId newBuildId now =
          (st, Except.error ("Job " ++ job.name ++ " is disabled"))) := by
  constructor
  · intro h
    unfold triggerBuild
    rw [h]
  · intro job hj hd
    unfold triggerBuild
    rw [hj]
    simp [hd]

/-- Witness for the C9 admission errors at a concrete store. -/
theorem triggerBuild_admission_witness :
    (findJob c9Store 99 = none ∧
      triggerBuild c9Store 99 5 0 =
        (c9Store, Except.error ("Job " ++ toString 99 ++ " not found"))) ∧
    (findJob c9Store 4 = some jobDisabled ∧ jobDisabled.enabled = false ∧
      triggerBuild c9Store 4 5 0 =
        (c9Store, Except.error ("Job " ++ jobDisabled.name ++ " is disabled"))) :=
  ⟨⟨by decide, (triggerBuild_admission c9Store 99 5 0).1 (by decide)⟩,
    ⟨by decide, by decide,
      (triggerBuild_admission c9Store 4 5 0).2 jobDisabled (by decide) (by decide)⟩⟩

theorem findBuild_updateBuild (builds : List Build) (bid : Nat) (b b1 : Build)
    (hfind : builds.find? (fun x => x.id = bid) = some b) (hid : b1.id = b.id) :
    (updateBuild builds b1).find? (fun x => x.id = bid) = some b1 := by
  have hb : b.id = bid := by simpa using List.find?_some hfind
  induction builds with
  | nil => simp at hfind
  | cons y ys ih =>
    by_cases hy : y.id = bid
    · rw [List.find?_cons_of_pos _ (by simpa using hy)] at hfind
      simp only [Option.some.injEq] at hfind
      subst hfind
      simp only [updateBuild, List.map_cons]
      rw [if_pos hid.symm]
      exact List.find?_cons_of_pos _ (by simp [hid, hb])
    · rw [List.find?_cons_of_neg _ (by simpa using hy)] at hfind
      simp only [updateBuild, List.map_cons]
      have hyb : (if y.id = b1.id then b1 else y) = y := by
        rw [if_neg]
        intro hc
        rw [hid, hb] at hc
        exact hy hc
      rw [hyb]
      rw [List.find?_cons_of_neg _ (by simpa using hy)]
      exact ih hfind

/-- **C10** (confirmed): if a build is abortable (status Queued, Pending or
Running), the first `abort_build` returns true and leaves it Aborted; the
second call on the resulting store returns false, releases nothing, and
returns the store completely unchanged — neither the build record nor any
node's `current_executors` moves. -/
theorem abortBuild_twice_safe (st : Store) (bid : Nat) (now now2 : Nat) (b : Build)
    (hb : findBuild st bid = some b)
    (hs : b.status = BuildStatus.queued ∨ b.status = BuildStatus.pending ∨
      b.status = BuildStatus.running) :
    (controllerAbortBuild st bid now).1 = true ∧
    (∃ b1, findBuild (controllerAbortBuild st bid now).2.1 bid = some b1 ∧
      b1.status = BuildStatus.aborted) ∧
    controllerAbortBuild (controllerAbortBuild st bid now).2.1 bid now2 =
      (false, (controllerAbortBuild st bid now).2.1,
        { releasedNodes := [], markCompletedCalls := [] }) := by
  have hfind : st.builds.find? (fun x => x.id = bid) = some b := hb
  have hfind2 : (updateBuild st.builds
      { b with status := BuildStatus.aborted, result := some "ABORTED",
               endTime := some now }).find? (fun x => x.id = bid) =
      some { b with status := BuildStatus.aborted, result := some "ABORTED",
                    endTime := some now } :=
    findBuild_updateBuild st.builds bid b _ hfind rfl
  cases hnode : b.nodeId with
  | some nid =>
    have h1 : controllerAbortBuild st bid now =
        (true, { st with
                   builds := updateBuild st.builds
                     { b with status := BuildStatus.aborted, result := some "ABORTED",
                              endTime := some now },
                   nodes := releaseNode st.nodes nid },
          { releasedNodes := [nid], markCompletedCalls := [] }) := by
      simp only [controllerAbortBuild, hb]
      rw [if_pos hs]
      simp only [hnode]
    have hfa : findBuild { st with
          builds := updateBuild st.builds
            { b with status := BuildStatus.aborted, result := some "ABORTED",
                     endTime := some now },
          nodes := releaseNode st.nodes nid } bid =
        some { b with status := BuildStatus.aborted, result := some "ABORTED",
                      endTime := some now } := hfind2
    rw [h1]
    refine ⟨rfl, ⟨_, hfind2, rfl⟩, ?_⟩
    show controllerAbortBuild { st with
          builds := updateBuild st.builds
            { b with status := BuildStatus.aborted, result := some "ABORTED",
                     endTime := some now },
          nodes := releaseNode st.nodes nid } bid now2 =
      (false, { st with
          builds := updateBuild st.builds
            { b with status := BuildStatus.aborted, result := some "ABORTED",
                     endTime := some now },
          nodes := releaseNode st.nodes nid },
        { releasedNodes := [], markCompletedCalls := [] })
    simp only [controllerAbortBuild, hfa]
    rw [if_neg (by simp)]
  | none =>
    have h1 : controllerAbortBuild st bid now =
        (true, { st with
                   builds := updateBuild st.builds
                     { b with status := BuildStatus.aborted, result := some "ABORTED",
                              endTime := some now } },
          { releasedNodes := [], markCompletedCalls := [] }) := by
      simp only [controllerAbortBuild, hb]
      rw [if_pos hs]
      simp only [hnode]
    have hfa : findBuild { st with
          builds := updateBuild st.builds
            { b with status := BuildStatus.aborted, result := some "ABORTED",
                     endTime := some now } } bid =
        some { b with status := BuildStatus.aborted, result := some "ABORTED",
                      endTime := some now } := hfind2
    rw [h1]
    refine ⟨rfl, ⟨_, hfind2, rfl⟩, ?_⟩
    show controllerAbortBuild { st with
          builds := updateBuild st.builds
            { b with status := BuildStatus.aborted, result := some "ABORTED",
                     endTime := some now } } bid now2 =
      (false, { st with
          builds := updateBuild st.builds
            { b with status := BuildStatus.aborted, result := some "ABORTED",
                     endTime := some now } },
        { releasedNodes := [], markCompletedCalls := [] })
    simp only [controllerAbortBuild, hfa]
    rw [if_neg (by simp)]

/-- Witness for the C10 double-abort safety at a concrete store. -/
theorem abortBuild_twice_safe_witness :
    (findBuild c10Store 1 = some buildRun ∧
      (buildRun.status = BuildStatus.queued ∨ buildRun.status = BuildStatus.pending ∨
        buildRun.status = BuildStatus.running)) ∧
    ((controllerAbortBuild c10Store 1 5).1 = true ∧
      (∃ b1, findBuild (controllerAbortBuild c10Store 1 5).2.1 1 = some b1 ∧
        b1.status = BuildStatus.aborted) ∧
      controllerAbortBuild (controllerAbortBuild c10Store 1 5).2.1 1 6 =
        (false, (controllerAbortBuild c10Store 1 5).2.1,
          { releasedNodes := [], markCompletedCalls := [] })) :=
  ⟨⟨by decide, by decide⟩,
    abortBuild_twice_safe c10Store 1 5 6 buildRun (by decide) (by decide)⟩

/-- **C1** (code bug): in the trace where build 1 acquires the pool's only
agent, build 2 acquires its second slot, build 1 is aborted while `RUNNING`,
and build 1's execution task then finishes, the agent slot is released twice
— once by `abort_build` and once by the `finally` block of `_execute_build` —
so `current_executors` falls to 0 while build 2 is still `RUNNING`; and no
`jenkins_queue.mark_completed` call is made on any path (the controller has
no call site for it). -/
theorem release_twice_on_abort :
    c1Start1.2 = some agentTwo ∧
    c1Start2.1.nodes.map Node.currentExecutors = [2] ∧
    c1Abort.1 = true ∧
    c1Abort.2.2.releasedNodes = [1] ∧
    c1Finish.2.releasedNodes = [1] ∧
    c1Abort.2.2.markCompletedCalls = [] ∧
    c1Finish.2.markCompletedCalls = [] ∧
    (findBuild c1Finish.1 2).map Build.status = some BuildStatus.running ∧
    c1Finish.1.nodes.map Node.currentExecutors = [0] := by
  refine ⟨?_, ?_, ?_, ?_, ?_, ?_, ?_, ?_, ?_⟩ <;> decide

/-- **C2** (code bug): a docker build whose remote command exceeds
`build_timeout` does not end with status `TIMEOUT`: `_execute_docker_build`
catches the `asyncio.TimeoutError` internally and returns `exit_code = -1`,
so `_execute_build` records `FAILURE`, sets `exit_code = -1` (not unset), and
stores the message "Timeout after 100 seconds"; the agent's
`current_executors` does return to its pre-acquisition value (0). -/
theorem timeout_build_marked_failure :
    (findBuild c2Result.1 1).map Build.status = some BuildStatus.failure ∧
    (findBuild c2Result.1 1).map Build.status ≠ some BuildStatus.timeout ∧
    (findBuild c2Result.1 1).map Build.exitCode = some (some (-1)) ∧
    (findBuild c2Result.1 1).map Build.errorMessage =
      some (some "Timeout after 100 seconds") ∧
    c2Result.1.nodes.map Node.currentExecutors = [0] ∧
    c2Result.2.releasedNodes = [1] := by
  refine ⟨?_, ?_, ?_, ?_, ?_, ?_⟩ <;> decide

/-- **C5** (code bug): aborting a still-Queued build returns true and sets
the terminal status `ABORTED`, but the execution task that was already
enqueued for it then runs `_execute_build`, which sets the status to
`PENDING`/`RUNNING` unconditionally and drives the aborted build on to
`SUCCESS`. -/
theorem aborted_build_resurrected :
    c5Abort.1 = true ∧
    (findBuild c5Abort.2.1 1).map Build.status = some BuildStatus.aborted ∧
    (findBuild (executeBuildStart hashZero c5Abort.2.1 1 10).1 1).map Build.status =
      some BuildStatus.running ∧
    (findBuild c5After.1 1).map Build.status = some BuildStatus.success := by
  refine ⟨?_, ?_, ?_, ?_⟩ <;> decide

end MTP
